import Mathlib

/-!
Verification of the git-metrics repository: a shallow embedding of the
synchronization and metrics-aggregation engine and of the client pages
that consume it.  The frontend definitions are translated from the
TypeScript sources (`api.ts`, `types.ts`, `Home.tsx`, `Contributors.tsx`,
`Dashboard.tsx`, `CodeChurn.tsx`); the backend engine (FastAPI /
`metrics_engine.py` / `database.py`) is not part of the sources, so its
operations are modelled from the specification, as marked on each
definition.
-/

namespace GitMetrics

/-! ## Data model (spec section 3) -/

/-- FileChange row: file path plus line deltas for one commit. -/
structure FileChange where
  file_path : String
  lines_added : Nat
  lines_deleted : Nat
deriving DecidableEq

/-- Commit row: provider hash, author identity, authored timestamp
(seconds since epoch), message, aggregate line counts and the file-level
changes belonging to the commit. -/
structure Commit where
  hash : String
  author_name : String
  author_email : String
  timestamp : Nat
  message : String
  lines_added : Nat
  lines_deleted : Nat
  file_changes : List FileChange
deriving DecidableEq

/-- Modelled from the spec: the Commit Store for one repository — the
durable commit rows plus the DailyMetric rollup projection, here the
per-day commit counts keyed by epoch day. -/
structure Store where
  commits : List Commit
  daily_rollup : List (Nat × Nat)
deriving DecidableEq

/-- Modelled from the spec: a repository's sync-relevant state — its
Commit Store and the `last_sync` watermark (`none` means never synced,
i.e. full history on the next sync). -/
structure RepoState where
  store : Store
  last_sync : Option Nat
deriving DecidableEq

/-! ## Sync Engine (spec section 4.2) — modelled from the spec -/

/-- Does the store already hold a commit with this hash?  The hash is the
natural idempotency key (unique per repository). -/
def hasHash (s : Store) (h : String) : Bool :=
  s.commits.any (fun d => d.hash == h)

/-- Modelled from the spec: increment the DailyMetric rollup bucket for
one epoch day, creating the bucket when absent. -/
def bumpDaily (rollup : List (Nat × Nat)) (day : Nat) : List (Nat × Nat) :=
  match rollup with
  | [] => [(day, 1)]
  | (d, n) :: rest =>
      if d == day then (d, n + 1) :: rest else (d, n) :: bumpDaily rest day

/-- Modelled from the spec: insert one commit with skip-on-conflict by
hash; on a fresh hash the commit row is appended and the rollup is
advanced, on a re-delivered hash the store is left untouched, so a retry
never double-counts a commit in the rollups. -/
def insertCommit (s : Store) (c : Commit) : Store :=
  if hasHash s c.hash then s
  else { commits := s.commits ++ [c],
         daily_rollup := bumpDaily s.daily_rollup (c.timestamp / 86400) }

/-- Modelled from the spec: a commit is fetched when it lies strictly
after the watermark; a `none` watermark means full history. -/
def afterWatermark (w : Option Nat) (c : Commit) : Bool :=
  match w with
  | none => true
  | some t => t < c.timestamp

/-- Maximum of an accumulator and a commit's timestamp, used to advance
the in-progress watermark cursor. -/
def tsMax (acc : Nat) (c : Commit) : Nat := max acc c.timestamp

/-- Modelled from the spec: the final watermark committed after a sync —
unchanged when no commit was fetched, otherwise the maximum of the old
watermark and every processed commit's timestamp (so `last_sync` never
regresses). -/
def newWatermark (w : Option Nat) (fresh : List Commit) : Option Nat :=
  match fresh with
  | [] => w
  | _ :: _ => some (fresh.foldl tsMax (w.getD 0))

/-- Modelled from the spec: one complete incremental sync pass — fetch
the remote commits strictly after the watermark, insert each with
skip-on-conflict by hash (updating rollups), then commit the final
watermark. -/
def syncOnce (rs : RepoState) (remote : List Commit) : RepoState :=
  let fresh := remote.filter (afterWatermark rs.last_sync)
  { store := fresh.foldl insertCommit rs.store,
    last_sync := newWatermark rs.last_sync fresh }

/-! ## Sync status (spec sections 4.2, 6; client type in `types.ts`) -/

/-- The four sync states of the per-repository state machine. -/
inductive SyncState where
  | notStarted
  | running
  | completed
  | error
deriving DecidableEq

/-- Wire encoding of a sync state, matching the client union type
`'not_started' | 'running' | 'completed' | 'error'`. -/
def SyncState.wire : SyncState → String
  | .notStarted => "not_started"
  | .running => "running"
  | .completed => "completed"
  | .error => "error"

/-- Is a wire string one of the four values the client type admits? -/
def validWireStatus (s : String) : Bool :=
  s == "not_started" || s == "running" || s == "completed" || s == "error"

/-- Modelled from the spec: the per-repository SyncStatus record —
state, progress percentage, human message, commits processed. -/
structure SyncStatus where
  status : SyncState
  progress : Nat
  message : String
  commits_processed : Nat
deriving DecidableEq

/-- The client-side wire shape of a status response (`types.ts`): the
status string plus optional progress, message and commits-processed
fields. -/
structure SyncStatusWire where
  status : String
  progress : Option Nat
  message : Option String
  commits_processed : Option Nat
deriving DecidableEq

/-- Modelled from the spec: progress percentage computed against a known
or estimated total commit count, clamped into 0–100. -/
def mkProgress (processed total : Nat) : Nat :=
  if total = 0 then 0 else min (processed * 100 / total) 100

/-- Modelled from the spec: the process-wide SyncStatus map, one entry
per repository id. -/
def Tracker := List (Nat × SyncStatus)

/-- Modelled from the spec: `getStatus(repositoryId)` — the stored
status when one exists, otherwise the NotStarted default. -/
def getStatus (tracker : List (Nat × SyncStatus)) (repoId : Nat) : SyncStatus :=
  match tracker.find? (fun e => e.1 == repoId) with
  | some e => e.2
  | none => { status := .notStarted, progress := 0,
              message := "Sync not started", commits_processed := 0 }

/-- Modelled from the spec: write one repository's status into the
tracker, replacing an existing entry or appending a new one. -/
def setStatus (tracker : List (Nat × SyncStatus)) (repoId : Nat)
    (st : SyncStatus) : List (Nat × SyncStatus) :=
  match tracker with
  | [] => [(repoId, st)]
  | e :: rest =>
      if e.1 == repoId then (repoId, st) :: rest
      else e :: setStatus rest repoId st

/-- Modelled from the spec: status created when a sync starts. -/
def runningStatus (msg : String) : SyncStatus :=
  { status := .running, progress := 0, message := msg, commits_processed := 0 }

/-- Modelled from the spec: status written after each batch. -/
def batchStatus (processed total : Nat) (msg : String) : SyncStatus :=
  { status := .running, progress := mkProgress processed total,
    message := msg, commits_processed := processed }

/-- Modelled from the spec: terminal Completed status. -/
def completedStatus (processed : Nat) (msg : String) : SyncStatus :=
  { status := .completed, progress := 100, message := msg,
    commits_processed := processed }

/-- Modelled from the spec: terminal Error status, keeping the progress
reached so far. -/
def errorStatus (prev : SyncStatus) (msg : String) : SyncStatus :=
  { prev with status := .error, message := msg }

/-- Well-formed tracker: every stored progress percentage is in 0–100. -/
def TrackerWF (tracker : List (Nat × SyncStatus)) : Prop :=
  ∀ e ∈ tracker, e.2.progress ≤ 100

/-- Modelled from the spec: result of requesting a sync — the request is
either accepted (installing a Running status) or rejected with
`ConcurrentSyncRejected` when one is already running for the repository. -/
inductive SyncStartResult where
  | accepted (tracker : List (Nat × SyncStatus))
  | rejected
deriving DecidableEq

/-- Modelled from the spec: `sync(repositoryId, fullResync)` admission —
at most one sync in flight per repository, a request while one is
Running is rejected, never run as a second overlapping ingestion. -/
def requestSync (tracker : List (Nat × SyncStatus)) (repoId : Nat) : SyncStartResult :=
  if (getStatus tracker repoId).status = SyncState.running then .rejected
  else .accepted (setStatus tracker repoId (runningStatus "Starting sync"))

/-! ## Client sync API (`api.ts`) and Home page (`Home.tsx`) -/

/-- Payload of the client's start call: `POST /sync` with
`{repo_id, full_sync}` (from `syncApi.start`). -/
structure SyncRequest where
  repo_id : Nat
  full_sync : Bool
deriving DecidableEq

/-- Wire shape of the start call's acceptance response
(`{message, repo_id}` in `syncApi.start`). -/
structure SyncAccepted where
  message : String
  repo_id : Nat
deriving DecidableEq

/-- The client's start call body (`syncApi.start`): it posts the
repository id and the full-sync flag. -/
def syncStartRequest (repoId : Nat) (fullSync : Bool) : SyncRequest :=
  { repo_id := repoId, full_sync := fullSync }

/-- The start call applied with its declared default `fullSync = false`
(`syncApi.start`'s parameter default). -/
def syncStartDefault (repoId : Nat) : SyncRequest :=
  syncStartRequest repoId false

/-- Modelled from the spec: the fire-and-forget acceptance the start
endpoint answers with; progress is then polled via status. -/
def acceptResponse (repoId : Nat) : SyncAccepted :=
  { message := "Sync started", repo_id := repoId }

/-- The Home page's sync handler (`handleSync`): it always invokes the
start call with `false` for the full-sync flag. -/
def handleSync (repoId : Nat) : SyncRequest :=
  syncStartRequest repoId false

/-- The polling interval of `pollSyncStatus` in milliseconds. -/
def pollIntervalMs : Nat := 2000

/-- One poll observation: `none` when the status request itself failed
(the catch branch), `some s` for a received status payload. -/
def pollShouldStop (resp : Option SyncStatusWire) : Bool :=
  match resp with
  | none => true
  | some s => s.status == "completed" || s.status == "error"

/-- Whether one poll observation triggers a reload of the repository
list (`loadRepositories`), which `pollSyncStatus` does only on
`'completed'`. -/
def pollShouldReload (resp : Option SyncStatusWire) : Bool :=
  match resp with
  | none => false
  | some s => s.status == "completed"

/-- The Sync Repository button's disabled flag
(`disabled={status?.status === 'running'}` in `Home.tsx`). -/
def syncButtonDisabled (st : Option SyncStatusWire) : Bool :=
  match st with
  | none => false
  | some s => s.status == "running"

/-- The Home page's rendering of a repository's last sync
(`repo.last_sync ? format(...) : 'Never'`); the locale formatting is
abstracted as the function argument. -/
def lastSyncText (fmt : String → String) (last_sync : Option String) : String :=
  match last_sync with
  | none => "Never"
  | some s => fmt s

/-! ## Contributors page (`Contributors.tsx`) -/

/-- The role-badge colour function (`getRoleBadgeColor`): a switch on
the role string with a gray default branch. -/
def getRoleBadgeColor (role : String) : String :=
  if role = "Core Contributor" then
    "bg-blue-900/50 text-blue-300 border-blue-700"
  else if role = "Regular Contributor" then
    "bg-green-900/50 text-green-300 border-green-700"
  else
    "bg-gray-700 text-gray-300 border-gray-600"

/-- The call site's substitution of the empty string for an undefined
role field (`contributor.role || ''`). -/
def roleOrEmpty (role : Option String) : String :=
  role.getD ""

/-! ## Ordering keys for deterministic metric output (spec section 4.4) -/

/-- Lexicographic order on character lists, comparing code points. -/
def charListLe : List Char → List Char → Bool
  | [], _ => true
  | _ :: _, [] => false
  | c :: cs, d :: ds =>
      if c.toNat < d.toNat then true
      else if d.toNat < c.toNat then false
      else charListLe cs ds

/-- Lexicographic order on strings, used for deterministic tie-breaks. -/
def strLe (a b : String) : Bool :=
  charListLe a.data b.data

/-- Descending order on the numeric key with ascending lexicographic
tie-break on the string key — the determinism order of the churn lists. -/
def KeyRel (x y : Nat × String) : Prop :=
  y.1 < x.1 ∨ (x.1 = y.1 ∧ strLe x.2 y.2 = true)

instance (x y : Nat × String) : Decidable (KeyRel x y) :=
  inferInstanceAs (Decidable (_ ∨ _))

/-- Descending order on the first numeric key with ascending tie-break
on the second numeric key. -/
def NatKeyRel (x y : Nat × Nat) : Prop :=
  y.1 < x.1 ∨ (x.1 = y.1 ∧ x.2 ≤ y.2)

instance (x y : Nat × Nat) : Decidable (NatKeyRel x y) :=
  inferInstanceAs (Decidable (_ ∨ _))

theorem charListLe_cons_iff (c d : Char) (cs ds : List Char) :
    charListLe (c :: cs) (d :: ds) = true ↔
      c.toNat < d.toNat ∨ (c.toNat = d.toNat ∧ charListLe cs ds = true) := by
  simp only [charListLe]
  rcases Nat.lt_trichotomy c.toNat d.toNat with h | h | h
  · simp [h]
  · simp [h]
  · simp [h, Nat.lt_asymm h, Nat.ne_of_gt h]

theorem charListLe_total :
    ∀ (a b : List Char), charListLe a b = true ∨ charListLe b a = true
  | [], _ => Or.inl rfl
  | _ :: _, [] => Or.inr rfl
  | c :: cs, d :: ds => by
    rw [charListLe_cons_iff, charListLe_cons_iff]
    rcases Nat.lt_trichotomy c.toNat d.toNat with h | h | h
    · exact Or.inl (Or.inl h)
    · rcases charListLe_total cs ds with ih | ih
      · exact Or.inl (Or.inr ⟨h, ih⟩)
      · exact Or.inr (Or.inr ⟨h.symm, ih⟩)
    · exact Or.inr (Or.inl h)

theorem charListLe_trans :
    ∀ (a b c : List Char), charListLe a b = true → charListLe b c = true →
      charListLe a c = true
  | [], _, _, _, _ => rfl
  | _ :: _, [], _, hab, _ => by simp [charListLe] at hab
  | _ :: _, _ :: _, [], _, hbc => by simp [charListLe] at hbc
  | x :: xs, y :: ys, z :: zs, hab, hbc => by
    rw [charListLe_cons_iff] at hab hbc ⊢
    rcases hab with h1 | ⟨e1, t1⟩ <;> rcases hbc with h2 | ⟨e2, t2⟩
    · exact Or.inl (Nat.lt_trans h1 h2)
    · exact Or.inl (by omega)
    · exact Or.inl (by omega)
    · exact Or.inr ⟨e1.trans e2, charListLe_trans xs ys zs t1 t2⟩

theorem keyRel_total (x y : Nat × String) : KeyRel x y ∨ KeyRel y x := by
  rcases Nat.lt_trichotomy x.1 y.1 with h | h | h
  · exact Or.inr (Or.inl h)
  · rcases charListLe_total x.2.data y.2.data with h2 | h2
    · exact Or.inl (Or.inr ⟨h, h2⟩)
    · exact Or.inr (Or.inr ⟨h.symm, h2⟩)
  · exact Or.inl (Or.inl h)

theorem keyRel_trans (x y z : Nat × String) :
    KeyRel x y → KeyRel y z → KeyRel x z := by
  intro hxy hyz
  rcases hxy with h1 | ⟨e1, l1⟩ <;> rcases hyz with h2 | ⟨e2, l2⟩
  · exact Or.inl (Nat.lt_trans h2 h1)
  · exact Or.inl (by omega)
  · exact Or.inl (by omega)
  · exact Or.inr ⟨e1.trans e2, charListLe_trans _ _ _ l1 l2⟩

/-! ## Metrics Engine (spec section 4.4) — modelled from the spec -/

/-- Churn of one commit: lines added plus lines deleted. -/
def commitChurn (c : Commit) : Nat := c.lines_added + c.lines_deleted

/-- A commit lies in the trailing window of `days` days before `now`
(timestamps in seconds, truncated subtraction). -/
def inWindow (now days : Nat) (c : Commit) : Bool :=
  now - days * 86400 ≤ c.timestamp

/-- One row of the per-file churn list (client `ChurnMetrics.file_churn`). -/
structure FileChurnEntry where
  file_path : String
  churn : Nat
  change_frequency : Nat
  contributors : Nat
deriving DecidableEq

/-- One row of the per-developer churn list
(client `ChurnMetrics.developer_churn`). -/
structure DeveloperChurnEntry where
  author_name : String
  author_email : String
  churn : Nat
  added : Nat
  deleted : Nat
  commits : Nat
deriving DecidableEq

/-- The churn query result (client `ChurnMetrics`). -/
structure ChurnMetrics where
  total_churn : Nat
  file_churn : List FileChurnEntry
  developer_churn : List DeveloperChurnEntry
  period_days : Nat
deriving DecidableEq

/-- Determinism order of `file_churn`: descending churn, ties broken by
file path. -/
def FileRel (a b : FileChurnEntry) : Prop :=
  KeyRel (a.churn, a.file_path) (b.churn, b.file_path)

instance : DecidableRel FileRel :=
  fun _ _ => inferInstanceAs (Decidable (KeyRel _ _))

instance : IsTotal FileChurnEntry FileRel :=
  ⟨fun _ _ => keyRel_total _ _⟩

instance : IsTrans FileChurnEntry FileRel :=
  ⟨fun _ _ _ => keyRel_trans _ _ _⟩

/-- Determinism order of `developer_churn`: descending churn, ties
broken by author email. -/
def DevRel (a b : DeveloperChurnEntry) : Prop :=
  KeyRel (a.churn, a.author_email) (b.churn, b.author_email)

instance : DecidableRel DevRel :=
  fun _ _ => inferInstanceAs (Decidable (KeyRel _ _))

instance : IsTotal DeveloperChurnEntry DevRel :=
  ⟨fun _ _ => keyRel_total _ _⟩

instance : IsTrans DeveloperChurnEntry DevRel :=
  ⟨fun _ _ _ => keyRel_trans _ _ _⟩

/-- All distinct file paths touched by a list of commits. -/
def filePaths (cs : List Commit) : List String :=
  ((cs.map (fun c => c.file_changes.map (fun f => f.file_path))).flatten).dedup

/-- Total churn of one file across a list of commits: added plus deleted
lines of every file change on that path. -/
def fileChurnAt (cs : List Commit) (p : String) : Nat :=
  (cs.map (fun c =>
    ((c.file_changes.filter (fun f => f.file_path == p)).map
      (fun f => f.lines_added + f.lines_deleted)).sum)).sum

/-- Modelled from the spec: one per-file churn row over the windowed
commits — churn, change frequency (commits touching the file) and the
distinct contributor count. -/
def fileEntry (cs : List Commit) (p : String) : FileChurnEntry :=
  let touched := cs.filter (fun c => c.file_changes.any (fun f => f.file_path == p))
  { file_path := p,
    churn := fileChurnAt cs p,
    change_frequency := touched.length,
    contributors := (touched.map (fun c => c.author_email)).dedup.length }

/-- Modelled from the spec: one per-contributor churn row over the
windowed commits. -/
def devEntry (cs : List Commit) (e : String) : DeveloperChurnEntry :=
  let mine := cs.filter (fun c => c.author_email == e)
  let a := (mine.map (fun c => c.lines_added)).sum
  let d := (mine.map (fun c => c.lines_deleted)).sum
  { author_name := ((mine.map (fun c => c.author_name)).head?).getD "",
    author_email := e,
    churn := a + d, added := a, deleted := d,
    commits := mine.length }

/-- Modelled from the spec: `getChurn(repositoryId, days)` — per-file
and per-contributor churn over the trailing window, both sorted
descending by churn with deterministic lexicographic tie-breaks. -/
def getChurn (store : Store) (now days : Nat) : ChurnMetrics :=
  let cs := store.commits.filter (inWindow now days)
  { total_churn := (cs.map commitChurn).sum,
    file_churn := List.insertionSort FileRel ((filePaths cs).map (fileEntry cs)),
    developer_churn :=
      List.insertionSort DevRel
        (((cs.map (fun c => c.author_email)).dedup).map (devEntry cs)),
    period_days := days }

/-- The Churning Files card of the CodeChurn page: the length of the
`file_churn` list (`churn.file_churn.length`). -/
def churningFilesCount (m : ChurnMetrics) : Nat := m.file_churn.length

/-- The Top 20 Files by Churn chart's data: the first 20 entries of
`file_churn` in order (`churn.file_churn.slice(0, 20)`). -/
def churnTop20 (m : ChurnMetrics) : List FileChurnEntry :=
  m.file_churn.take 20

/-! ## Commit patterns (spec section 4.4) — modelled from the spec -/

/-- The commit-patterns result (client `CommitPatterns`). -/
structure CommitPatterns where
  hourly_distribution : List Nat
  daily_distribution : List Nat
  peak_hour : Nat
  peak_day : Nat
deriving DecidableEq

/-- Hour of day (0–23) of a commit's timestamp. -/
def commitHour (c : Commit) : Nat := c.timestamp / 3600 % 24

/-- Day of week (0–6, epoch day 0 being a Thursday shifted so 0 renders
Sunday) of a commit's timestamp. -/
def commitDay (c : Commit) : Nat := (c.timestamp / 86400 + 4) % 7

/-- Bucketed occurrence counts: one bucket per value in `0 ..< buckets`. -/
def histogram (buckets : Nat) (f : Commit → Nat) (cs : List Commit) : List Nat :=
  (List.range buckets).map (fun b => (cs.filter (fun c => f c == b)).length)

/-- Maximum of a list of naturals, 0 for the empty list. -/
def listMax : List Nat → Nat
  | [] => 0
  | x :: xs => max x (listMax xs)

/-- Index of the first occurrence of a value in a list. -/
def firstIdxOf (a : Nat) : List Nat → Nat
  | [] => 0
  | x :: xs => if x = a then 0 else firstIdxOf a xs + 1

/-- Index of the maximum of a list, ties broken by the earliest index
(the first occurrence of the maximum). -/
def argmaxIdx (l : List Nat) : Nat :=
  firstIdxOf (listMax l) l

/-- Modelled from the spec: `getCommitPatterns(repositoryId)` — the
24-bucket hour histogram, the 7-bucket day histogram, and their argmax
peaks with earliest-index tie-break. -/
def getCommitPatterns (store : Store) : CommitPatterns :=
  let hourly := histogram 24 commitHour store.commits
  let daily := histogram 7 commitDay store.commits
  { hourly_distribution := hourly,
    daily_distribution := daily,
    peak_hour := argmaxIdx hourly,
    peak_day := argmaxIdx daily }

/-! ## Summary, velocity, bus factor, quality, contributor insights
(spec section 4.4) — modelled from the spec -/

/-- The repository summary (client `RepositorySummary`), timestamps as
epoch seconds. -/
structure RepositorySummary where
  total_commits : Nat
  total_contributors : Nat
  total_lines_added : Nat
  total_lines_deleted : Nat
  total_lines_changed : Nat
  first_commit : Nat
  last_commit : Nat
deriving DecidableEq

/-- Modelled from the spec: `getSummary(repositoryId)` — repository-wide
totals and the first/last commit timestamps. -/
def getSummary (store : Store) : RepositorySummary :=
  let cs := store.commits
  let la := (cs.map (fun c => c.lines_added)).sum
  let ld := (cs.map (fun c => c.lines_deleted)).sum
  let ts := cs.map (fun c => c.timestamp)
  { total_commits := cs.length,
    total_contributors := (cs.map (fun c => c.author_email)).dedup.length,
    total_lines_added := la,
    total_lines_deleted := ld,
    total_lines_changed := la + ld,
    first_commit := match ts with | [] => 0 | t :: rest => rest.foldl min t,
    last_commit := match ts with | [] => 0 | t :: rest => rest.foldl max t }

/-- One weekly velocity bucket (client `VelocityMetrics.weekly_metrics`
row), the week labelled by its bucket index, oldest first. -/
structure WeeklyMetric where
  week : Nat
  commits : Nat
  lines_added : Nat
  lines_deleted : Nat
  lines_changed : Nat
  active_contributors : Nat
deriving DecidableEq

/-- The velocity result (client `VelocityMetrics`). -/
structure VelocityMetrics where
  weekly_metrics : List WeeklyMetric
  commit_trend_percentage : Int
  weeks_analyzed : Nat
deriving DecidableEq

/-- Modelled from the spec: trend percentage — (mean of the most recent
half of the buckets minus mean of the earlier half) over the earlier
mean times 100, reporting 0 when the earlier-half mean is zero. -/
def trendPct (buckets : List Nat) : Int :=
  let h := buckets.length / 2
  let earlier := buckets.take h
  let recent := buckets.drop h
  let em : Int := if earlier.length = 0 then 0 else (earlier.sum : Int) / earlier.length
  let rm : Int := if recent.length = 0 then 0 else (recent.sum : Int) / recent.length
  if em = 0 then 0 else (rm - em) * 100 / em

/-- Modelled from the spec: `getVelocity(repositoryId, weeks)` — weekly
buckets over the trailing `weeks` weeks (bucket 0 the oldest), each with
commit count, line deltas and distinct active contributors, plus the
guarded trend percentage. -/
def getVelocity (store : Store) (now weeks : Nat) : VelocityMetrics :=
  let buckets := (List.range weeks).map (fun i =>
    let cs := store.commits.filter
      (fun c => (now - c.timestamp) / 604800 == weeks - 1 - i)
    let la := (cs.map (fun c => c.lines_added)).sum
    let ld := (cs.map (fun c => c.lines_deleted)).sum
    { week := i, commits := cs.length,
      lines_added := la, lines_deleted := ld, lines_changed := la + ld,
      active_contributors := (cs.map (fun c => c.author_email)).dedup.length
      : WeeklyMetric })
  { weekly_metrics := buckets,
    commit_trend_percentage := trendPct (buckets.map (fun b => b.commits)),
    weeks_analyzed := weeks }

/-- A contributor aggregate (client `Contributor`), dates as epoch
seconds and percentages as integer percent. -/
structure Contributor where
  id : Nat
  author_name : String
  author_email : String
  total_commits : Nat
  total_lines_added : Nat
  total_lines_deleted : Nat
  total_lines_changed : Nat
  first_commit_date : Nat
  last_commit_date : Nat
  commit_percentage : Nat
  lines_percentage : Nat
  avg_commit_size : Nat
  role : String
deriving DecidableEq

/-- Integer percentage of `part` in `whole`, 0 when `whole` is zero. -/
def pct (part whole : Nat) : Nat :=
  if whole = 0 then 0 else part * 100 / whole

/-- Modelled from the spec: role classification by fixed commit-share
thresholds — Core above a high threshold, Regular above a moderate one,
Occasional below both. -/
def roleFor (commitPct : Nat) : String :=
  if 20 ≤ commitPct then "Core Contributor"
  else if 5 ≤ commitPct then "Regular Contributor"
  else "Occasional Contributor"

/-- Modelled from the spec: the aggregate row for one contributor email
over a repository's commits. -/
def contributorOf (cs : List Commit) (idx : Nat) (e : String) : Contributor :=
  let mine := cs.filter (fun c => c.author_email == e)
  let la := (mine.map (fun c => c.lines_added)).sum
  let ld := (mine.map (fun c => c.lines_deleted)).sum
  let allChanged := (cs.map commitChurn).sum
  let ts := mine.map (fun c => c.timestamp)
  { id := idx,
    author_name := ((mine.map (fun c => c.author_name)).head?).getD "",
    author_email := e,
    total_commits := mine.length,
    total_lines_added := la,
    total_lines_deleted := ld,
    total_lines_changed := la + ld,
    first_commit_date := match ts with | [] => 0 | t :: rest => rest.foldl min t,
    last_commit_date := match ts with | [] => 0 | t :: rest => rest.foldl max t,
    commit_percentage := pct mine.length cs.length,
    lines_percentage := pct (la + ld) allChanged,
    avg_commit_size := if mine.length = 0 then 0 else (la + ld) / mine.length,
    role := roleFor (pct mine.length cs.length) }

/-- Modelled from the spec: the contributor aggregates of a repository,
one per distinct case-kept author email. -/
def contributorsOf (cs : List Commit) : List Contributor :=
  ((cs.map (fun c => c.author_email)).dedup).enum.map
    (fun ie => contributorOf cs ie.1 ie.2)

/-- Order of contributor lists: descending commit count, ties broken by
author email. -/
def ContribRel (a b : Contributor) : Prop :=
  KeyRel (a.total_commits, a.author_email) (b.total_commits, b.author_email)

instance : DecidableRel ContribRel :=
  fun _ _ => inferInstanceAs (Decidable (KeyRel _ _))

/-- Modelled from the spec: bus-factor ranking — descending total lines
changed, ties broken by the earliest first-commit date. -/
def BusRel (a b : Contributor) : Prop :=
  NatKeyRel (a.total_lines_changed, a.first_commit_date)
    (b.total_lines_changed, b.first_commit_date)

instance : DecidableRel BusRel :=
  fun _ _ => inferInstanceAs (Decidable (NatKeyRel _ _))

/-- One high-risk (single-owner) file row (client
`BusFactorMetrics.high_risk_files`), the ownership as integer percent. -/
structure HighRiskFile where
  file_path : String
  primary_owner : String
  ownership_percentage : Nat
  total_changes : Nat
deriving DecidableEq

/-- The bus-factor result (client `BusFactorMetrics`). -/
structure BusFactorMetrics where
  bus_factor : Nat
  total_files : Nat
  files_with_single_owner : Nat
  single_owner_percentage : Nat
  high_risk_files : List HighRiskFile
  contributor_distribution : List Contributor
deriving DecidableEq

/-- Number of commits by one author email that touch one file path. -/
def ownerChanges (cs : List Commit) (p e : String) : Nat :=
  (cs.filter (fun c =>
    c.author_email == e && c.file_changes.any (fun f => f.file_path == p))).length

/-- Number of commits touching one file path. -/
def fileTouchCount (cs : List Commit) (p : String) : Nat :=
  (cs.filter (fun c => c.file_changes.any (fun f => f.file_path == p))).length

/-- Modelled from the spec: the file's primary owner — the contributor
with the largest share of changes to it (earliest-listed on ties) —
paired with that owner's change count. -/
def primaryOwner (cs : List Commit) (p : String) : String × Nat :=
  let owners := ((cs.filter (fun c => c.file_changes.any (fun f => f.file_path == p))).map
    (fun c => c.author_email)).dedup
  let counts := owners.map (ownerChanges cs p)
  let j := argmaxIdx counts
  (owners.getD j "", counts.getD j 0)

/-- Modelled from the spec: the smallest count of top-ranked contributor
shares whose cumulative sum exceeds half of the total. -/
def cumulCount (total : Nat) : List Nat → Nat → Nat
  | [], _ => 0
  | s :: rest, acc =>
      if total < 2 * (acc + s) then 1 else 1 + cumulCount total rest (acc + s)

/-- Modelled from the spec: `getBusFactor(repositoryId)` — per-file
single-owner detection at the 80% cutoff and the repository-level bus
factor as the minimum number of top contributors (by lines changed)
holding a majority of the total churn. -/
def getBusFactor (store : Store) : BusFactorMetrics :=
  let cs := store.commits
  let files := filePaths cs
  let risky := files.filterMap (fun p =>
    let total := fileTouchCount cs p
    let ow := primaryOwner cs p
    if 0 < total ∧ 4 * total ≤ 5 * ow.2 then
      some { file_path := p, primary_owner := ow.1,
             ownership_percentage := ow.2 * 100 / total,
             total_changes := total : HighRiskFile }
    else none)
  let ranked := List.insertionSort BusRel (contributorsOf cs)
  let totalChanged := (cs.map commitChurn).sum
  { bus_factor := cumulCount totalChanged (ranked.map (fun c => c.total_lines_changed)) 0,
    total_files := files.length,
    files_with_single_owner := risky.length,
    single_owner_percentage := pct risky.length files.length,
    high_risk_files := risky,
    contributor_distribution := ranked }

/-- A file-hotspot aggregate (client `FileHotspot`). -/
structure FileHotspot where
  id : Nat
  file_path : String
  change_count : Nat
  total_lines_changed : Nat
  unique_contributors : Nat
  last_changed : Nat
deriving DecidableEq

/-- The quality-indicators result (client `QualityIndicators`). -/
structure QualityIndicators where
  average_commit_size : Nat
  average_files_per_commit : Nat
  message_quality_score : Nat
  file_hotspots : List FileHotspot
deriving DecidableEq

/-- Hotspot ordering: descending change count, ties broken by path. -/
def HotRel (a b : FileHotspot) : Prop :=
  KeyRel (a.change_count, a.file_path) (b.change_count, b.file_path)

instance : DecidableRel HotRel :=
  fun _ _ => inferInstanceAs (Decidable (KeyRel _ _))

/-- Modelled from the spec: the hotspot aggregate of one file path. -/
def hotspotOf (cs : List Commit) (idx : Nat) (p : String) : FileHotspot :=
  let touched := cs.filter (fun c => c.file_changes.any (fun f => f.file_path == p))
  { id := idx, file_path := p,
    change_count := touched.length,
    total_lines_changed := fileChurnAt cs p,
    unique_contributors := (touched.map (fun c => c.author_email)).dedup.length,
    last_changed := match touched.map (fun c => c.timestamp) with
      | [] => 0 | t :: rest => rest.foldl max t }

/-- Modelled from the spec: the message-quality heuristic on a 0–100
scale — penalizing very short messages, rewarding structured ones. -/
def messageScore (msg : String) : Nat :=
  if msg.length < 10 then 20
  else if msg.length < 30 then 60
  else if msg.length ≤ 100 then 90
  else 70

/-- Modelled from the spec: `getQualityIndicators(repositoryId)` — mean
commit size, mean files touched per commit, the mean message-quality
score and the current top-10 file hotspots. -/
def getQuality (store : Store) : QualityIndicators :=
  let cs := store.commits
  let n := cs.length
  { average_commit_size := if n = 0 then 0 else (cs.map commitChurn).sum / n,
    average_files_per_commit :=
      if n = 0 then 0 else (cs.map (fun c => c.file_changes.length)).sum / n,
    message_quality_score :=
      if n = 0 then 0 else (cs.map (fun c => messageScore c.message)).sum / n,
    file_hotspots :=
      (List.insertionSort HotRel
        ((filePaths cs).enum.map (fun ip => hotspotOf cs ip.1 ip.2))).take 10 }

/-- The contributor-insights result (client `ContributorInsights`). -/
structure ContributorInsights where
  total_contributors : Nat
  active_contributors_last_30_days : Nat
  contributors : List Contributor
  top_contributors : List Contributor
deriving DecidableEq

/-- Modelled from the spec: `getContributorInsights(repositoryId)` —
per-contributor aggregates with fixed-threshold roles, the count active
in the trailing 30 days, and the top contributors by commit count. -/
def getContributorInsights (store : Store) (now : Nat) : ContributorInsights :=
  let contribs := List.insertionSort ContribRel (contributorsOf store.commits)
  { total_contributors := contribs.length,
    active_contributors_last_30_days :=
      (contribs.filter (fun c => now - 30 * 86400 ≤ c.last_commit_date)).length,
    contributors := contribs,
    top_contributors := contribs.take 10 }

/-- The comprehensive bundle (client `ComprehensiveMetrics`). -/
structure ComprehensiveMetrics where
  summary : RepositorySummary
  churn : ChurnMetrics
  velocity : VelocityMetrics
  bus_factor : BusFactorMetrics
  commit_patterns : CommitPatterns
  quality_indicators : QualityIndicators
  contributors : ContributorInsights
deriving DecidableEq

/-- Modelled from the spec: `getComprehensive(repositoryId)` — bundles
all of the per-repository metrics reads, at the same default windows the
client's individual calls use (30 churn days, 12 velocity weeks). -/
def getComprehensive (store : Store) (now : Nat) : ComprehensiveMetrics :=
  { summary := getSummary store,
    churn := getChurn store now 30,
    velocity := getVelocity store now 12,
    bus_factor := getBusFactor store,
    commit_patterns := getCommitPatterns store,
    quality_indicators := getQuality store,
    contributors := getContributorInsights store now }

/-- The Dashboard chart's hard-coded hourly category labels
(`Array.from({length: 24}, (_, i) => i + ':00')`). -/
def hourlyChartLabels : List String :=
  (List.range 24).map (fun i => toString i ++ ":00")

/-- The Dashboard chart's hard-coded day-of-week category labels. -/
def dailyChartLabels : List String :=
  ["Sun", "Mon", "Tue", "Wed", "Thu", "Fri", "Sat"]

/-- A tiny concrete store used to evaluate the churn ordering: one
commit touching two files with distinct churn. -/
def wStore : Store :=
  { commits := [{ hash := "h1", author_name := "A", author_email := "a@x",
                  timestamp := 1000, message := "m",
                  lines_added := 4, lines_deleted := 0,
                  file_changes := [{ file_path := "a.txt", lines_added := 3, lines_deleted := 0 },
                                   { file_path := "b.txt", lines_added := 1, lines_deleted := 0 }] }],
    daily_rollup := [(0, 1)] }

/-- A tiny concrete store used to evaluate the commit patterns: two
commits in hour 5 and one in hour 2 of epoch day 0. -/
def pStore : Store :=
  { commits := [{ hash := "p1", author_name := "A", author_email := "a@x",
                  timestamp := 7200, message := "m",
                  lines_added := 1, lines_deleted := 0, file_changes := [] },
                { hash := "p2", author_name := "A", author_email := "a@x",
                  timestamp := 18000, message := "m",
                  lines_added := 1, lines_deleted := 0, file_changes := [] },
                { hash := "p3", author_name := "B", author_email := "b@x",
                  timestamp := 18001, message := "m",
                  lines_added := 1, lines_deleted := 0, file_changes := [] }],
    daily_rollup := [] }

/-! ## Helper lemmas -/

theorem foldl_tsMax_init_le (l : List Commit) (init : Nat) :
    init ≤ l.foldl tsMax init := by
  induction l generalizing init with
  | nil => simp
  | cons c l ih =>
    simp only [List.foldl_cons]
    exact le_trans (Nat.le_max_left init c.timestamp) (ih (tsMax init c))

theorem foldl_tsMax_mem_le :
    ∀ (l : List Commit) (init : Nat) (c : Commit), c ∈ l →
      c.timestamp ≤ l.foldl tsMax init
  | [], _, _, h => absurd h (List.not_mem_nil _)
  | d :: l, init, c, h => by
    simp only [List.foldl_cons]
    rcases List.mem_cons.mp h with rfl | h'
    · exact le_trans (Nat.le_max_right init c.timestamp) (foldl_tsMax_init_le l _)
    · exact foldl_tsMax_mem_le l (tsMax init d) c h'

/-- After a sync has committed its final watermark, an unchanged remote
history yields no commit strictly after the new watermark. -/
theorem second_fresh_nil (w : Option Nat) (remote : List Commit) :
    remote.filter
      (afterWatermark (newWatermark w (remote.filter (afterWatermark w)))) = [] := by
  cases hfr : remote.filter (afterWatermark w) with
  | nil =>
    simpa [newWatermark] using hfr
  | cons a as =>
    have hM : ∀ x ∈ remote, x.timestamp ≤ (a :: as).foldl tsMax (w.getD 0) := by
      intro x hx
      by_cases hw : afterWatermark w x = true
      · have hmem : x ∈ remote.filter (afterWatermark w) :=
          List.mem_filter.mpr ⟨hx, hw⟩
        rw [hfr] at hmem
        exact foldl_tsMax_mem_le _ _ _ hmem
      · cases w with
        | none => simp [afterWatermark] at hw
        | some t =>
          simp only [afterWatermark, decide_eq_true_eq] at hw
          have hxt : x.timestamp ≤ t := Nat.le_of_not_lt hw
          exact le_trans hxt (foldl_tsMax_init_le (a :: as) ((some t).getD 0))
    refine List.filter_eq_nil_iff.mpr ?_
    intro c hc
    simp only [newWatermark, afterWatermark, decide_eq_true_eq]
    exact Nat.not_lt.mpr (hM c hc)

theorem insertCommit_skip (s : Store) (c : Commit)
    (h : hasHash s c.hash = true) : insertCommit s c = s := by
  simp [insertCommit, h]

theorem insertCommit_idem (s : Store) (c : Commit) :
    insertCommit (insertCommit s c) c = insertCommit s c := by
  by_cases h : hasHash s c.hash = true
  · rw [insertCommit_skip s c h]
    exact insertCommit_skip s c h
  · have h' : hasHash (insertCommit s c) c.hash = true := by
      unfold insertCommit
      rw [if_neg h]
      simp [hasHash]
    exact insertCommit_skip _ c h'

/-- Elements of the prefix of a pairwise-ordered list relate to every
element of the matching suffix. -/
theorem pairwise_take_drop {α : Type} {r : α → α → Prop} {l : List α}
    (h : List.Pairwise r l) (n : Nat) :
    ∀ x ∈ l.take n, ∀ y ∈ l.drop n, r x y := by
  have h2 : List.Pairwise r (l.take n ++ l.drop n) := by
    rw [List.take_append_drop]; exact h
  exact (List.pairwise_append.mp h2).2.2

theorem listMax_mem : ∀ (l : List Nat), l ≠ [] → listMax l ∈ l
  | [], h => absurd rfl h
  | [x], _ => by simp [listMax]
  | x :: y :: ys, _ => by
    rcases max_choice x (listMax (y :: ys)) with h | h
    · show max x (listMax (y :: ys)) ∈ x :: y :: ys
      rw [h]
      exact List.mem_cons_self _ _
    · show max x (listMax (y :: ys)) ∈ x :: y :: ys
      rw [h]
      exact List.mem_cons_of_mem x (listMax_mem (y :: ys) (by simp))

theorem le_listMax : ∀ (l : List Nat), ∀ x ∈ l, x ≤ listMax l
  | [], x, hx => absurd hx (List.not_mem_nil x)
  | d :: l, x, hx => by
    simp only [listMax]
    rcases List.mem_cons.mp hx with rfl | h'
    · exact Nat.le_max_left _ _
    · exact le_trans (le_listMax l x h') (Nat.le_max_right _ _)

theorem firstIdxOf_lt_length :
    ∀ (l : List Nat) (a : Nat), a ∈ l → firstIdxOf a l < l.length
  | [], a, h => absurd h (List.not_mem_nil a)
  | x :: xs, a, h => by
    simp only [firstIdxOf]
    split
    · simp
    · next hne =>
      have h' : a ∈ xs := by
        rcases List.mem_cons.mp h with rfl | h'
        · exact absurd rfl hne
        · exact h'
      simpa using Nat.succ_lt_succ (firstIdxOf_lt_length xs a h')

theorem getD_firstIdxOf :
    ∀ (l : List Nat) (a : Nat), a ∈ l → l.getD (firstIdxOf a l) 0 = a
  | [], a, h => absurd h (List.not_mem_nil a)
  | x :: xs, a, h => by
    simp only [firstIdxOf]
    split
    · next heq => simpa [List.getD_cons_zero] using heq
    · next hne =>
      have h' : a ∈ xs := by
        rcases List.mem_cons.mp h with rfl | h'
        · exact absurd rfl hne
        · exact h'
      simpa [List.getD_cons_succ] using getD_firstIdxOf xs a h'

theorem getD_ne_of_lt_firstIdxOf :
    ∀ (l : List Nat) (a i : Nat), i < firstIdxOf a l → l.getD i 0 ≠ a
  | [], a, i, h => by simp [firstIdxOf] at h
  | x :: xs, a, i, h => by
    simp only [firstIdxOf] at h
    split at h
    · exact absurd h (Nat.not_lt_zero i)
    · next hne =>
      cases i with
      | zero => simpa [List.getD_cons_zero] using hne
      | succ i' =>
        have h' : i' < firstIdxOf a xs := Nat.lt_of_succ_lt_succ h
        simpa [List.getD_cons_succ] using getD_ne_of_lt_firstIdxOf xs a i' h'

theorem argmaxIdx_lt_length (l : List Nat) (h : l ≠ []) :
    argmaxIdx l < l.length :=
  firstIdxOf_lt_length l (listMax l) (listMax_mem l h)

theorem argmaxIdx_getD_le (l : List Nat) (i : Nat) (h : i < l.length) :
    l.getD i 0 ≤ l.getD (argmaxIdx l) 0 := by
  have hne : l ≠ [] := List.ne_nil_of_length_pos (by omega)
  rw [argmaxIdx, getD_firstIdxOf l (listMax l) (listMax_mem l hne)]
  have hm : l.getD i 0 ∈ l := by
    rw [List.getD_eq_getElem l 0 h]
    exact List.getElem_mem h
  exact le_listMax l _ hm

theorem argmaxIdx_earliest (l : List Nat) (i : Nat) (h : i < argmaxIdx l) :
    l.getD i 0 < l.getD (argmaxIdx l) 0 := by
  have hne : l ≠ [] := by
    intro he
    rw [he] at h
    simp [argmaxIdx, firstIdxOf] at h
  have hlen : i < l.length := Nat.lt_trans h (argmaxIdx_lt_length l hne)
  rw [argmaxIdx, getD_firstIdxOf l (listMax l) (listMax_mem l hne)]
  have hm : l.getD i 0 ∈ l := by
    rw [List.getD_eq_getElem l 0 hlen]
    exact List.getElem_mem hlen
  have hle : l.getD i 0 ≤ listMax l := le_listMax l _ hm
  have hne2 : l.getD i 0 ≠ listMax l := getD_ne_of_lt_firstIdxOf l (listMax l) i h
  omega

theorem mkProgress_le (processed total : Nat) : mkProgress processed total ≤ 100 := by
  unfold mkProgress
  split
  · omega
  · exact min_le_right _ _

theorem setStatus_wf :
    ∀ (tracker : List (Nat × SyncStatus)) (repoId : Nat) (st : SyncStatus),
      TrackerWF tracker → st.progress ≤ 100 →
        TrackerWF (setStatus tracker repoId st)
  | [], _, st, _, hst => by
    intro e he
    simp only [setStatus, List.mem_singleton] at he
    simpa [he] using hst
  | d :: rest, repoId, st, hwf, hst => by
    intro e he
    simp only [setStatus] at he
    split at he
    · rcases List.mem_cons.mp he with rfl | h'
      · exact hst
      · exact hwf e (List.mem_cons_of_mem d h')
    · rcases List.mem_cons.mp he with heq | h'
      · exact hwf e (by rw [heq]; exact List.mem_cons_self d rest)
      · exact setStatus_wf rest repoId st
          (fun x hx => hwf x (List.mem_cons_of_mem d hx)) hst e h'

/-! ## Claim theorems -/

/-- C1: Sync is idempotent — with the remote history and the watermark
unchanged, a second sync leaves the Commit Store (rows and rollups)
byte-identical and `last_sync` unchanged; and re-inserting an
already-stored commit (the partial-failure retry path, detected via hash
uniqueness) is a no-op, so rollups never double-count a commit. -/
theorem sync_idempotent (rs : RepoState) (remote : List Commit) :
    syncOnce (syncOnce rs remote) remote = syncOnce rs remote
  ∧ ∀ (s : Store) (c : Commit),
      insertCommit (insertCommit s c) c = insertCommit s c := by
  refine ⟨?_, fun s c => insertCommit_idem s c⟩
  have h2 := second_fresh_nil rs.last_sync remote
  simp only [syncOnce]
  rw [h2]
  simp [newWatermark]

/-- C2: The sync-status read always yields one of exactly the four
states (whose wire strings are exactly the four the client type admits),
a progress percentage bounded by 100, a message and a commits-processed
count. -/
theorem getStatus_contract (tracker : List (Nat × SyncStatus)) (repoId : Nat)
    (hwf : TrackerWF tracker) :
    validWireStatus (getStatus tracker repoId).status.wire = true
  ∧ (getStatus tracker repoId).progress ≤ 100
  ∧ (∀ st : SyncState, validWireStatus st.wire = true)
  ∧ (∀ w : String, validWireStatus w = true → ∃ st : SyncState, st.wire = w) := by
  have hall : ∀ st : SyncState, validWireStatus st.wire = true := by
    intro st
    cases st <;> rfl
  refine ⟨hall _, ?_, hall, ?_⟩
  · rcases hf : tracker.find? (fun e => e.1 == repoId) with _ | e
    · simp [getStatus, hf]
    · have he : e ∈ tracker := List.mem_of_find?_eq_some hf
      simpa [getStatus, hf] using hwf e he
  · intro w hw
    by_cases h0 : w = "not_started"
    · exact ⟨.notStarted, h0.symm⟩
    by_cases h1 : w = "running"
    · exact ⟨.running, h1.symm⟩
    by_cases h2 : w = "completed"
    · exact ⟨.completed, h2.symm⟩
    by_cases h3 : w = "error"
    · exact ⟨.error, h3.symm⟩
    exfalso
    simp [validWireStatus, h0, h1, h2, h3] at hw

/-- Witness for C2: the contract evaluated at the empty tracker, whose
well-formedness hypothesis holds vacuously. -/
theorem getStatus_contract_witness :
    validWireStatus (getStatus [] 0).status.wire = true
  ∧ (getStatus [] 0).progress ≤ 100 := by
  have h := getStatus_contract [] 0 (by intro e he; simp at he)
  exact ⟨h.1, h.2.1⟩

/-- C3: At most one sync in flight per repository — a sync requested
while the repository's status is Running is rejected, and the client's
Sync Repository button is disabled exactly while the reported wire
status is the string of the running state. -/
theorem concurrent_sync_rejected (tracker : List (Nat × SyncStatus)) (repoId : Nat) :
    ((getStatus tracker repoId).status = SyncState.running →
      requestSync tracker repoId = SyncStartResult.rejected)
  ∧ (∀ st : Option SyncStatusWire,
      syncButtonDisabled st = true ↔ ∃ s, st = some s ∧ s.status = "running") := by
  constructor
  · intro h
    simp [requestSync, h]
  · intro st
    cases st with
    | none => simp [syncButtonDisabled]
    | some s => simp [syncButtonDisabled]

/-- Witness for C3: a tracker with a running entry is rejected, and a
running wire status disables the button. -/
theorem concurrent_sync_rejected_witness :
    requestSync [(1, runningStatus "m")] 1 = SyncStartResult.rejected
  ∧ syncButtonDisabled
      (some { status := "running", progress := none,
              message := none, commits_processed := none }) = true := by
  refine ⟨(concurrent_sync_rejected [(1, runningStatus "m")] 1).1 (by decide), ?_⟩
  exact ((concurrent_sync_rejected [] 0).2 _).mpr ⟨_, rfl, rfl⟩

/-- C4: A churn read over a window with no commits never fails — it
returns zero total churn and an empty file-churn list, the client's
Churning Files count renders 0, and never-synced is signalled only by a
null `last_sync`, which the client renders as the string Never. -/
theorem churn_no_data (store : Store) (now days : Nat)
    (h : store.commits.filter (inWindow now days) = []) :
    (getChurn store now days).total_churn = 0
  ∧ (getChurn store now days).file_churn = []
  ∧ churningFilesCount (getChurn store now days) = 0
  ∧ (∀ fmt : String → String, lastSyncText fmt none = "Never") := by
  refine ⟨?_, ?_, ?_, fun fmt => rfl⟩ <;>
    simp [getChurn, churningFilesCount, h, filePaths, List.insertionSort]

/-- Witness for C4: the empty store has an empty 30-day window. -/
theorem churn_no_data_witness :
    (getChurn { commits := [], daily_rollup := [] } 0 30).total_churn = 0
  ∧ (getChurn { commits := [], daily_rollup := [] } 0 30).file_churn = [] := by
  have h := churn_no_data { commits := [], daily_rollup := [] } 0 30 rfl
  exact ⟨h.1, h.2.1⟩

/-- C5: The churn lists are deterministically sorted — `file_churn`
descending by churn with file-path tie-break, `developer_churn`
descending by churn with author-email tie-break — and the client's Top
20 chart, which takes the first entries in order, shows entries whose
churn dominates everything beyond the cut. -/
theorem churn_sorted (store : Store) (now days : Nat) :
    List.Sorted FileRel (getChurn store now days).file_churn
  ∧ List.Sorted DevRel (getChurn store now days).developer_churn
  ∧ churnTop20 (getChurn store now days) = (getChurn store now days).file_churn.take 20
  ∧ ∀ (n : Nat), ∀ x ∈ (getChurn store now days).file_churn.take n,
      ∀ y ∈ (getChurn store now days).file_churn.drop n, y.churn ≤ x.churn := by
  have hs : List.Sorted FileRel (getChurn store now days).file_churn := by
    simp only [getChurn]
    exact List.sorted_insertionSort FileRel _
  have hd : List.Sorted DevRel (getChurn store now days).developer_churn := by
    simp only [getChurn]
    exact List.sorted_insertionSort DevRel _
  refine ⟨hs, hd, rfl, ?_⟩
  intro n x hx y hy
  have hr : y.churn < x.churn ∨
      (x.churn = y.churn ∧ strLe x.file_path y.file_path = true) :=
    pairwise_take_drop hs n x hx y hy
  rcases hr with hlt | ⟨heq, _⟩
  · exact Nat.le_of_lt hlt
  · exact Nat.le_of_eq heq.symm

/-- Witness for C5: in the two-file store the entry beyond the cut has
churn bounded by the entry before the cut. -/
theorem churn_sorted_witness :
    ((getChurn wStore 1000 30).file_churn.getD 1
        { file_path := "", churn := 0, change_frequency := 0, contributors := 0 }).churn
      ≤ ((getChurn wStore 1000 30).file_churn.getD 0
        { file_path := "", churn := 0, change_frequency := 0, contributors := 0 }).churn := by
  have hx : (getChurn wStore 1000 30).file_churn.getD 0
      { file_path := "", churn := 0, change_frequency := 0, contributors := 0 }
      ∈ (getChurn wStore 1000 30).file_churn.take 1 := by decide
  have hy : (getChurn wStore 1000 30).file_churn.getD 1
      { file_path := "", churn := 0, change_frequency := 0, contributors := 0 }
      ∈ (getChurn wStore 1000 30).file_churn.drop 1 := by decide
  exact (churn_sorted wStore 1000 30).2.2.2 1 _ hx _ hy

/-- C6: The commit-patterns result always holds a 24-bucket hour
histogram and a 7-bucket day histogram — matching the chart's
hard-coded 24 and 7 category labels — and each peak is the histogram's
argmax with ties broken by the earliest index. -/
theorem commit_patterns_shape (store : Store) :
    (getCommitPatterns store).hourly_distribution.length = 24
  ∧ (getCommitPatterns store).daily_distribution.length = 7
  ∧ hourlyChartLabels.length = 24
  ∧ dailyChartLabels.length = 7
  ∧ (getCommitPatterns store).peak_hour < 24
  ∧ (getCommitPatterns store).peak_day < 7
  ∧ (∀ i, i < 24 →
      (getCommitPatterns store).hourly_distribution.getD i 0
        ≤ (getCommitPatterns store).hourly_distribution.getD
            (getCommitPatterns store).peak_hour 0)
  ∧ (∀ i, i < (getCommitPatterns store).peak_hour →
      (getCommitPatterns store).hourly_distribution.getD i 0
        < (getCommitPatterns store).hourly_distribution.getD
            (getCommitPatterns store).peak_hour 0)
  ∧ (∀ i, i < 7 →
      (getCommitPatterns store).daily_distribution.getD i 0
        ≤ (getCommitPatterns store).daily_distribution.getD
            (getCommitPatterns store).peak_day 0)
  ∧ (∀ i, i < (getCommitPatterns store).peak_day →
      (getCommitPatterns store).daily_distribution.getD i 0
        < (getCommitPatterns store).daily_distribution.getD
            (getCommitPatterns store).peak_day 0) := by
  have hl : (histogram 24 commitHour store.commits).length = 24 := by
    simp [histogram]
  have hld : (histogram 7 commitDay store.commits).length = 7 := by
    simp [histogram]
  have hneH : histogram 24 commitHour store.commits ≠ [] :=
    List.ne_nil_of_length_pos (by omega)
  have hneD : histogram 7 commitDay store.commits ≠ [] :=
    List.ne_nil_of_length_pos (by omega)
  simp only [getCommitPatterns]
  refine ⟨hl, hld, by simp [hourlyChartLabels], rfl, ?_, ?_, ?_, ?_, ?_, ?_⟩
  · have := argmaxIdx_lt_length _ hneH
    omega
  · have := argmaxIdx_lt_length _ hneD
    omega
  · intro i hi
    exact argmaxIdx_getD_le _ i (by omega)
  · intro i hi
    exact argmaxIdx_earliest _ i hi
  · intro i hi
    exact argmaxIdx_getD_le _ i (by omega)
  · intro i hi
    exact argmaxIdx_earliest _ i hi

/-- Witness for C6: the shape facts evaluated on the three-commit store
whose hour peak is 5 and day peak is 4. -/
theorem commit_patterns_shape_witness :
    (getCommitPatterns pStore).hourly_distribution.length = 24
  ∧ (getCommitPatterns pStore).hourly_distribution.getD 0 0
      ≤ (getCommitPatterns pStore).hourly_distribution.getD
          (getCommitPatterns pStore).peak_hour 0
  ∧ (getCommitPatterns pStore).hourly_distribution.getD 2 0
      < (getCommitPatterns pStore).hourly_distribution.getD
          (getCommitPatterns pStore).peak_hour 0
  ∧ (getCommitPatterns pStore).daily_distribution.getD 0 0
      ≤ (getCommitPatterns pStore).daily_distribution.getD
          (getCommitPatterns pStore).peak_day 0
  ∧ (getCommitPatterns pStore).daily_distribution.getD 0 0
      < (getCommitPatterns pStore).daily_distribution.getD
          (getCommitPatterns pStore).peak_day 0 := by
  have h := commit_patterns_shape pStore
  exact ⟨h.1, h.2.2.2.2.2.2.1 0 (by decide), h.2.2.2.2.2.2.2.1 2 (by decide),
    h.2.2.2.2.2.2.2.2.1 0 (by decide), h.2.2.2.2.2.2.2.2.2 0 (by decide)⟩

/-- C7: The comprehensive read bundles exactly the per-repository
metrics reads — each field equals what the corresponding individual
read returns for the same repository at the client's default windows. -/
theorem comprehensive_bundles (store : Store) (now : Nat) :
    (getComprehensive store now).summary = getSummary store
  ∧ (getComprehensive store now).churn = getChurn store now 30
  ∧ (getComprehensive store now).velocity = getVelocity store now 12
  ∧ (getComprehensive store now).bus_factor = getBusFactor store
  ∧ (getComprehensive store now).commit_patterns = getCommitPatterns store
  ∧ (getComprehensive store now).quality_indicators = getQuality store
  ∧ (getComprehensive store now).contributors = getContributorInsights store now :=
  ⟨rfl, rfl, rfl, rfl, rfl, rfl, rfl⟩

/-- C8: Starting a sync is fire-and-forget — the start call posts the
repository id and full-sync flag and is answered with an acceptance
carrying the id; polling then runs every 2000 ms and stops exactly when
the reported status is completed or error or the status request itself
failed, reloading the repository list only on completed. -/
theorem sync_fire_and_forget (repoId : Nat) (fullSync : Bool) :
    (syncStartRequest repoId fullSync).repo_id = repoId
  ∧ (syncStartRequest repoId fullSync).full_sync = fullSync
  ∧ (acceptResponse repoId).repo_id = repoId
  ∧ pollIntervalMs = 2000
  ∧ (∀ resp : Option SyncStatusWire, pollShouldStop resp = true ↔
      resp = none ∨ ∃ s, resp = some s ∧ (s.status = "completed" ∨ s.status = "error"))
  ∧ (∀ resp : Option SyncStatusWire, pollShouldReload resp = true ↔
      ∃ s, resp = some s ∧ s.status = "completed") := by
  refine ⟨rfl, rfl, rfl, rfl, ?_, ?_⟩
  · intro resp
    cases resp with
    | none => simp [pollShouldStop]
    | some s => simp [pollShouldStop]
  · intro resp
    cases resp with
    | none => simp [pollShouldReload]
    | some s => simp [pollShouldReload]

/-- C9: The client never requests a full resync — the Home page's sync
handler always posts the start call with a false full-sync flag, as does
the start call's declared parameter default. -/
theorem client_never_full_resync (repoId : Nat) :
    handleSync repoId = syncStartRequest repoId false
  ∧ (handleSync repoId).full_sync = false
  ∧ (syncStartDefault repoId).full_sync = false :=
  ⟨rfl, rfl, rfl⟩

/-- C10: The role-badge colour function is total — Core Contributor
maps to the blue style, Regular Contributor to the green style, every
other string (including the empty string substituted for an undefined
role) to the gray default, and no input yields anything else. -/
theorem role_badge_total (role : String) :
    getRoleBadgeColor "Core Contributor" = "bg-blue-900/50 text-blue-300 border-blue-700"
  ∧ getRoleBadgeColor "Regular Contributor" = "bg-green-900/50 text-green-300 border-green-700"
  ∧ (role ≠ "Core Contributor" → role ≠ "Regular Contributor" →
      getRoleBadgeColor role = "bg-gray-700 text-gray-300 border-gray-600")
  ∧ (getRoleBadgeColor role = "bg-blue-900/50 text-blue-300 border-blue-700"
      ∨ getRoleBadgeColor role = "bg-green-900/50 text-green-300 border-green-700"
      ∨ getRoleBadgeColor role = "bg-gray-700 text-gray-300 border-gray-600")
  ∧ getRoleBadgeColor (roleOrEmpty none) = "bg-gray-700 text-gray-300 border-gray-600" := by
  refine ⟨by decide, by decide, ?_, ?_, by decide⟩
  · intro h1 h2
    simp [getRoleBadgeColor, h1, h2]
  · by_cases h1 : role = "Core Contributor"
    · exact Or.inl (by simp [getRoleBadgeColor, h1])
    · by_cases h2 : role = "Regular Contributor"
      · exact Or.inr (Or.inl (by simp [getRoleBadgeColor, h1, h2]))
      · exact Or.inr (Or.inr (by simp [getRoleBadgeColor, h1, h2]))

/-- Witness for C10: an unrecognised role string falls through to the
gray default. -/
theorem role_badge_total_witness :
    getRoleBadgeColor "Mystery" = "bg-gray-700 text-gray-300 border-gray-600" :=
  (role_badge_total "Mystery").2.2.1 (by decide) (by decide)

end GitMetrics
